import Mathlib

/-!
Shallow embedding of the medical-report analysis pipeline of `src/app.py`.

The embedded core consists of:
* the static pattern catalog `MEDICAL_PATTERNS` (app.py lines 26-43);
* the extractor `extract_medical_data` (lines 48-58), built on a model of
  `re.finditer` for the eight concrete patterns of the catalog (each source
  regex has the shape `LITERAL\s*[:=]?\s*(\d+)` or `LITERAL\s*[:=]?\s*(\d+\.\d+)`,
  so a pattern is embedded as its literal part plus the shape of its single
  capturing numeric group) and a model of Python `float()` on the decimal
  numerals such captures can denote;
* the visualizer `create_visualizations` (lines 60-107), with the wall-clock
  timestamp string (`datetime.now().strftime("%Y%m%d_%H%M%S")`) passed as an
  explicit parameter;
* the report builder `generate_report` (lines 109-138), with the analysis
  date string passed as an explicit parameter;
* the post-OCR part of the request handler `analyze_pdf` (lines 173-192),
  with the OCR text passed as an explicit parameter.

Python floats are modelled as exact rationals; `numpy.mean` is the exact
arithmetic mean, and Python `round(x, 2)` is modelled as rounding half to
even at two decimal digits (`round2` below).
-/

/-- Measurement kinds: the keys `'rbc'`, `'systolic'`, `'diastolic'`,
`'glucose'` of the `MEDICAL_PATTERNS` dict (app.py lines 26-43). -/
inductive Kind where
  | rbc
  | systolic
  | diastolic
  | glucose
deriving DecidableEq

/-- Shape of the single capturing group of a pattern: `(\d+)` or `(\d+\.\d+)`. -/
inductive NumFmt where
  | intFmt
  | decFmt
deriving DecidableEq

/-- One source regex. Every pattern in `MEDICAL_PATTERNS` has the exact shape
`LITERAL\s*[:=]?\s*(GROUP)` with `GROUP` either `\d+` or `\d+\.\d+`; we store
the literal and the group shape. -/
structure Pattern where
  lit : String
  fmt : NumFmt
deriving DecidableEq

/-- ASCII whitespace recognized by `\s` (the whitespace actually produced by
the OCR text handled here). -/
def isWs (c : Char) : Bool :=
  c = ' ' || c = '\t' || c = '\n' || c = '\r' || c = '\x0b' || c = '\x0c'

/-- Drop a literal from the front of the text, or fail. -/
def dropLit : List Char → List Char → Option (List Char)
  | [], cs => some cs
  | _ :: _, [] => none
  | l :: ls, c :: cs => if c = l then dropLit ls cs else none

/-- Greedy `\s*`. -/
def skipWs : List Char → List Char
  | [] => []
  | c :: cs => if isWs c then skipWs cs else c :: cs

/-- Greedy `\d+`-style digit run (possibly empty), returning the run and the rest. -/
def takeDigits : List Char → List Char × List Char
  | [] => ([], [])
  | c :: cs =>
    if c.isDigit then
      let p := takeDigits cs
      (c :: p.1, p.2)
    else ([], c :: cs)

/-- Match the capturing group: `(\d+)` or `(\d+\.\d+)`, returning the captured
characters and the rest of the text. Greedy matching is exact here: the digit
runs contain no `.`, so regex backtracking can never produce a match that the
greedy scan misses. -/
def matchNum : NumFmt → List Char → Option (List Char × List Char)
  | NumFmt.intFmt, cs =>
    let p := takeDigits cs
    if p.1.isEmpty then none else some (p.1, p.2)
  | NumFmt.decFmt, cs =>
    let p := takeDigits cs
    if p.1.isEmpty then none
    else
      match p.2 with
      | '.' :: rest =>
        let q := takeDigits rest
        if q.1.isEmpty then none else some (p.1 ++ '.' :: q.1, q.2)
      | _ => none

/-- Try to match a whole pattern `LITERAL\s*[:=]?\s*(GROUP)` at the current
position; on success return the captured group and the rest of the text after
the match. Consuming the optional `[:=]` greedily is exact: if the group fails
after consuming `:`/`=`, it also fails without consuming it, since the
character at that position is then `:`/`=`, which is neither whitespace nor a
digit. -/
def matchAt (p : Pattern) (cs : List Char) : Option (List Char × List Char) :=
  match dropLit p.lit.data cs with
  | none => none
  | some r1 =>
    let r2 := skipWs r1
    let r3 :=
      match r2 with
      | c :: rest => if c = ':' || c = '=' then rest else r2
      | [] => r2
    matchNum p.fmt (skipWs r3)

/-- Leftmost non-overlapping scan of `re.finditer`: try the pattern at each
position from the left; on a match, record the capture and resume after the
matched text. The `Nat` argument is fuel; with fuel ≥ the text length the scan
always completes, since every step consumes at least one character (each
pattern literal is non-empty). -/
def findAllFrom (p : Pattern) : Nat → List Char → List (List Char)
  | 0, _ => []
  | _ + 1, [] => []
  | n + 1, c :: cs =>
    match matchAt p (c :: cs) with
    | some (cap, rest) => cap :: findAllFrom p n rest
    | none => findAllFrom p n cs

/-- All captures of `re.finditer(pattern, text)`, in text order. -/
def findAll (p : Pattern) (text : String) : List String :=
  (findAllFrom p text.data.length text.data).map (fun cs => String.mk cs)

/-- Value of a digit run. -/
def digitsToNat (ds : List Char) : Nat :=
  ds.foldl (fun n c => 10 * n + (c.toNat - 48)) 0

/-- Model of Python `float()` restricted to the decimal numerals that the
captures of this program's patterns can denote: `\d+` or `\d+\.\d+` parse to
the exact rational they denote, anything else raises `ValueError` (here:
`none`). -/
def parseFloat (s : String) : Option ℚ :=
  let p := takeDigits s.data
  if p.1.isEmpty then none
  else
    match p.2 with
    | [] => some (digitsToNat p.1 : ℚ)
    | '.' :: rest =>
      let q := takeDigits rest
      if q.1.isEmpty || !q.2.isEmpty then none
      else some ((digitsToNat p.1 * 10 ^ q.1.length + digitsToNat q.1 : ℚ) / 10 ^ q.1.length)
    | _ => none

/-- The inner loop of `extract_medical_data` (app.py lines 53-57): walk the
captures of one pattern in order, `try` parsing each as a float, appending the
parsed value on success and silently `continue`-ing on `ValueError`. -/
def processCaptures : List String → List ℚ
  | [] => []
  | m :: ms =>
    match parseFloat m with
    | some v => v :: processCaptures ms
    | none => processCaptures ms

/-- Regex `Red Blood Cell Count\s*[:=]?\s*(\d+\.\d+)` (app.py line 28). -/
def pat_rbc1 : Pattern := ⟨"Red Blood Cell Count", NumFmt.decFmt⟩

/-- Regex `RBC\s*[:=]?\s*(\d+\.\d+)` (app.py line 29). -/
def pat_rbc2 : Pattern := ⟨"RBC", NumFmt.decFmt⟩

/-- Regex `Blood Pressure \(Systolic\)\s*[:=]?\s*(\d+)` (app.py line 32). -/
def pat_sys1 : Pattern := ⟨"Blood Pressure (Systolic)", NumFmt.intFmt⟩

/-- Regex `Systolic\s*[:=]?\s*(\d+)` (app.py line 33). -/
def pat_sys2 : Pattern := ⟨"Systolic", NumFmt.intFmt⟩

/-- Regex `Blood Pressure \(Diastolic\)\s*[:=]?\s*(\d+)` (app.py line 36). -/
def pat_dia1 : Pattern := ⟨"Blood Pressure (Diastolic)", NumFmt.intFmt⟩

/-- Regex `Diastolic\s*[:=]?\s*(\d+)` (app.py line 37). -/
def pat_dia2 : Pattern := ⟨"Diastolic", NumFmt.intFmt⟩

/-- Regex `Glucose\s*[:=]?\s*(\d+)` (app.py line 40). -/
def pat_glu1 : Pattern := ⟨"Glucose", NumFmt.intFmt⟩

/-- Regex `Blood Sugar\s*[:=]?\s*(\d+)` (app.py line 41). -/
def pat_glu2 : Pattern := ⟨"Blood Sugar", NumFmt.intFmt⟩

/-- The `MEDICAL_PATTERNS` dict (app.py lines 26-43), in insertion order. -/
def MEDICAL_PATTERNS : List (Kind × List Pattern) :=
  [ (Kind.rbc, [pat_rbc1, pat_rbc2])
  , (Kind.systolic, [pat_sys1, pat_sys2])
  , (Kind.diastolic, [pat_dia1, pat_dia2])
  , (Kind.glucose, [pat_glu1, pat_glu2]) ]

/-- All patterns of the catalog, in catalog order. -/
def catalogPatterns : List Pattern :=
  [pat_rbc1, pat_rbc2, pat_sys1, pat_sys2, pat_dia1, pat_dia2, pat_glu1, pat_glu2]

/-- The per-kind accumulation of `extract_medical_data` (app.py lines 50-57):
for each pattern of the kind in order, append the parsed values of all its
matches to the kind's list. -/
def extractKind (text : String) : List Pattern → List ℚ
  | [] => []
  | p :: ps => processCaptures (findAll p text) ++ extractKind text ps

/-- `extract_medical_data` (app.py lines 48-58): a dict with one entry per
catalog kind (all keys are created up front on line 49), each mapped to the
values accumulated from that kind's patterns. Modelled as an association list
in dict insertion order. -/
def extract_medical_data (text : String) : List (Kind × List ℚ) :=
  MEDICAL_PATTERNS.map (fun kp => (kp.1, extractKind text kp.2))

/-- Round half to even at integer precision: the idealized (exact decimal)
behaviour of Python's banker's rounding. -/
def roundHalfEven (q : ℚ) : ℤ :=
  if q - ⌊q⌋ < 1/2 then ⌊q⌋
  else if 1/2 < q - ⌊q⌋ then ⌊q⌋ + 1
  else if 2 ∣ ⌊q⌋ then ⌊q⌋ else ⌊q⌋ + 1

/-- Python `round(x, 2)`: round half to even at two decimal digits. -/
def round2 (q : ℚ) : ℚ := (roundHalfEven (q * 100) : ℚ) / 100

/-- `numpy.mean`: the arithmetic mean, exact in rational arithmetic. -/
def npMean (l : List ℚ) : ℚ := l.sum / l.length

/-- One entry of `report['statistics']` (app.py lines 120-125). -/
structure Stats where
  average : ℚ
  min : ℚ
  max : ℚ
  count : Nat
deriving DecidableEq

/-- The statistics entry computed for a non-empty value list `x :: xs`
(app.py lines 120-125): `average = round(np.mean(values), 2)`,
`min = round(min(values), 2)`, `max = round(max(values), 2)`,
`count = len(values)`. Python `min`/`max` of a non-empty list are left folds
of the binary operations over the list. -/
def statsOf (x : ℚ) (xs : List ℚ) : Stats :=
  { average := round2 (npMean (x :: xs))
  , min := round2 (xs.foldl Min.min x)
  , max := round2 (xs.foldl Max.max x)
  , count := (x :: xs).length }

/-- The statistics loop of `generate_report` (app.py lines 118-125): for each
kind, in dict order, add an entry only `if values` is non-empty. -/
def statistics (data : List (Kind × List ℚ)) : List (Kind × Stats) :=
  data.filterMap (fun kv =>
    match kv.2 with
    | [] => none
    | x :: xs => some (kv.1, statsOf x xs))

/-- `max_measurements` (app.py line 128):
`max(len(values) for values in data.values() if values)`. Python's `max`
raises `ValueError` on an empty generator, i.e. when every kind's list is
empty; in that case this model returns `0` — every theorem about row building
therefore assumes at least one non-empty kind, which is exactly the
precondition under which line 128 executes without raising. -/
def maxMeasurements (data : List (Kind × List ℚ)) : Nat :=
  ((data.filter (fun kv => !kv.2.isEmpty)).map (fun kv => kv.2.length)).foldl max 0

/-- One row of `report['measurements']` (app.py lines 130-135): for every key
of the dict, the i-th value `if i < len(data[key])`, else `None`. -/
def measurementRow (data : List (Kind × List ℚ)) (i : Nat) : List (Kind × Option ℚ) :=
  data.map (fun kv => (kv.1, kv.2[i]?))

/-- The measurement rows of `generate_report` (app.py lines 128-136):
one row per index `i in range(max_measurements)`. -/
def measurements (data : List (Kind × List ℚ)) : List (List (Kind × Option ℚ)) :=
  (List.range (maxMeasurements data)).map (measurementRow data)

/-- The report dict of `generate_report` (app.py lines 110-115). The
`date_analyzed` string (`datetime.now().strftime("%Y-%m-%d %H:%M:%S")`,
line 112) is an input of the model. -/
structure Report where
  filename : String
  date_analyzed : String
  statistics : List (Kind × Stats)
  measurements : List (List (Kind × Option ℚ))
deriving DecidableEq

/-- `generate_report` (app.py lines 109-138). -/
def generate_report (data : List (Kind × List ℚ)) (filename date_analyzed : String) :
    Report :=
  { filename := filename
  , date_analyzed := date_analyzed
  , statistics := statistics data
  , measurements := measurements data }

/-- One generated chart: its key in the returned `visualizations` dict, the
path the image file is written to (`os.path.join('static', ...)`), and the
URL recorded in the dict. -/
structure Chart where
  name : String
  file : String
  url : String
deriving DecidableEq

/-- `create_visualizations` (app.py lines 60-107). The timestamp string
(`datetime.now().strftime("%Y%m%d_%H%M%S")`, line 61 — second resolution) is
an input of the model. Each chart is guarded by *key membership* in the dict
(`'systolic' in data and 'diastolic' in data`, `'rbc' in data`,
`'glucose' in data`), not by non-emptiness of the value lists. -/
def create_visualizations (data : List (Kind × List ℚ)) (timestamp : String) :
    List Chart :=
  (if (data.lookup Kind.systolic).isSome && (data.lookup Kind.diastolic).isSome then
    [⟨"blood_pressure", "static/bp_" ++ timestamp ++ ".png",
      "/static/bp_" ++ timestamp ++ ".png"⟩]
  else []) ++
  (if (data.lookup Kind.rbc).isSome then
    [⟨"rbc", "static/rbc_" ++ timestamp ++ ".png",
      "/static/rbc_" ++ timestamp ++ ".png"⟩]
  else []) ++
  (if (data.lookup Kind.glucose).isSome then
    [⟨"glucose", "static/glucose_" ++ timestamp ++ ".png",
      "/static/glucose_" ++ timestamp ++ ".png"⟩]
  else [])

/-- Outcomes of the `/analyze` handler past OCR (app.py lines 173-195):
the distinct no-data error response (lines 175-179, HTTP 400), the success
response (lines 187-192), and the generic unexpected-failure response of the
`except` block (lines 194-195, HTTP 500). The modelled region (extraction,
visualization, report building) raises nothing, so `failure` is only ever
produced by the excluded OCR/rasterization/chart-IO collaborators. -/
inductive AnalyzeResult where
  | noData (error debug_text : String)
  | success (report : Report) (visualizations : List Chart)
  | failure (error : String)
deriving DecidableEq

/-- The bounded diagnostic preview of the no-data response (app.py line 178):
`full_text[:1000] + ("..." if len(full_text) > 1000 else "")`. Python string
slicing and `len` count code points, i.e. the entries of `String.data`. -/
def debugPreview (full_text : String) : String :=
  String.mk (full_text.data.take 1000) ++
    (if 1000 < full_text.data.length then "..." else "")

/-- The post-OCR pipeline of `analyze_pdf` (app.py lines 173-192): extract,
test `if not any(medical_data.values())` (i.e. every kind's list is empty),
and either return the no-data error with its diagnostic preview or build the
visualizations and the report. -/
def analyze_extracted (full_text filename timestamp : String) : AnalyzeResult :=
  let medical_data := extract_medical_data full_text
  if medical_data.all (fun kv => kv.2.isEmpty) then
    AnalyzeResult.noData "No medical data found in the document" (debugPreview full_text)
  else
    AnalyzeResult.success (generate_report medical_data filename timestamp)
      (create_visualizations medical_data timestamp)

/-! ### Basic structural lemmas -/

theorem processCaptures_append (a b : List String) :
    processCaptures (a ++ b) = processCaptures a ++ processCaptures b := by
  induction a with
  | nil => rfl
  | cons m ms ih =>
    simp only [List.cons_append, processCaptures]
    cases parseFloat m <;> simp [ih]

theorem processCaptures_length (ms : List String) :
    (processCaptures ms).length =
      ((ms.filter (fun m => (parseFloat m).isSome))).length := by
  induction ms with
  | nil => rfl
  | cons m ms ih =>
    simp only [processCaptures, List.filter_cons]
    cases h : parseFloat m <;> simp [h, ih]

theorem lookup_extract (text : String) (k : Kind) (ps : List Pattern)
    (h : (k, ps) ∈ MEDICAL_PATTERNS) :
    (extract_medical_data text).lookup k = some (extractKind text ps) := by
  simp only [MEDICAL_PATTERNS, List.mem_cons, List.not_mem_nil, or_false] at h
  rcases h with h | h | h | h <;>
    (injection h with h1 h2; subst h1; subst h2; rfl)

theorem lookup_of_mem_extract (text : String) (k : Kind) (vs : List ℚ)
    (h : (k, vs) ∈ extract_medical_data text) :
    (extract_medical_data text).lookup k = some vs := by
  simp only [extract_medical_data, MEDICAL_PATTERNS, List.map_cons, List.map_nil,
    List.mem_cons, List.not_mem_nil, or_false] at h
  rcases h with h | h | h | h <;>
    (injection h with h1 h2; subst h1; subst h2; rfl)

theorem row_lookup_of_mem_extract (text : String) (i : Nat) (k : Kind) (vs : List ℚ)
    (h : (k, vs) ∈ extract_medical_data text) :
    (measurementRow (extract_medical_data text) i).lookup k = some vs[i]? := by
  simp only [extract_medical_data, MEDICAL_PATTERNS, List.map_cons, List.map_nil,
    List.mem_cons, List.not_mem_nil, or_false] at h
  rcases h with h | h | h | h <;>
    (injection h with h1 h2; subst h1; subst h2; rfl)

/-! ### Claims C3, C7, C8 -/

/-- C3: for a kind with pattern list `P1, P2`, the extracted sequence is
exactly the parsed values of `P1`'s matches followed by the parsed values of
`P2`'s matches (no merging, sorting or deduplication), so its length is
`k1 + k2` where `k1`/`k2` count the parseable matches of `P1`/`P2`. -/
theorem extract_pattern_order (text : String) (k : Kind) (p1 p2 : Pattern)
    (h : (k, [p1, p2]) ∈ MEDICAL_PATTERNS) :
    (extract_medical_data text).lookup k =
      some (processCaptures (findAll p1 text) ++ processCaptures (findAll p2 text))
    ∧ (extractKind text [p1, p2]).length =
        ((findAll p1 text).filter (fun m => (parseFloat m).isSome)).length +
          ((findAll p2 text).filter (fun m => (parseFloat m).isSome)).length := by
  constructor
  · rw [lookup_extract text k [p1, p2] h]
    simp [extractKind]
  · simp [extractKind, processCaptures_length]

theorem extract_pattern_order_witness :
    (Kind.glucose, [pat_glu1, pat_glu2]) ∈ MEDICAL_PATTERNS
    ∧ ((extract_medical_data "Glucose: 95 Blood Sugar: 100").lookup Kind.glucose =
        some (processCaptures (findAll pat_glu1 "Glucose: 95 Blood Sugar: 100") ++
          processCaptures (findAll pat_glu2 "Glucose: 95 Blood Sugar: 100"))
      ∧ (extractKind "Glucose: 95 Blood Sugar: 100" [pat_glu1, pat_glu2]).length =
          ((findAll pat_glu1 "Glucose: 95 Blood Sugar: 100").filter
              (fun m => (parseFloat m).isSome)).length +
            ((findAll pat_glu2 "Glucose: 95 Blood Sugar: 100").filter
              (fun m => (parseFloat m).isSome)).length) :=
  ⟨by decide,
    extract_pattern_order "Glucose: 95 Blood Sugar: 100" Kind.glucose pat_glu1 pat_glu2
      (by decide)⟩

/-- C7: a capture that fails float parsing contributes zero entries, raises
no error (the processing function is total and simply recurses), and does not
shift the values parsed from the surrounding matches: processing
`pre ++ [bad] ++ post` gives exactly the values of `pre` followed by the
values of `post`, i.e. the same list as processing with the malformed match
removed. -/
theorem malformed_capture_skipped (pre post : List String) (bad : String)
    (h : parseFloat bad = none) :
    processCaptures (pre ++ bad :: post) = processCaptures pre ++ processCaptures post
    ∧ processCaptures (pre ++ bad :: post) = processCaptures (pre ++ post) := by
  have h1 : processCaptures (bad :: post) = processCaptures post := by
    simp [processCaptures, h]
  constructor
  · rw [processCaptures_append, h1]
  · rw [processCaptures_append, h1, processCaptures_append]

theorem malformed_capture_skipped_witness :
    parseFloat "12..3" = none
    ∧ (processCaptures (["11"] ++ "12..3" :: ["13"]) =
        processCaptures ["11"] ++ processCaptures ["13"]
      ∧ processCaptures (["11"] ++ "12..3" :: ["13"]) =
        processCaptures (["11"] ++ ["13"])) :=
  ⟨by decide, malformed_capture_skipped ["11"] ["13"] "12..3" (by decide)⟩

/-- C8: on a text with zero matches of every catalog pattern, every
measurement kind of the catalog is present as a key of the result, mapped to
the empty sequence. -/
theorem extract_no_matches (text : String)
    (h : ∀ p ∈ catalogPatterns, findAll p text = []) :
    extract_medical_data text = (MEDICAL_PATTERNS.map (fun kp => (kp.1, ([] : List ℚ))))
    ∧ ∀ k ps, (k, ps) ∈ MEDICAL_PATTERNS → (extract_medical_data text).lookup k = some [] := by
  have h1 : findAll pat_rbc1 text = [] := h pat_rbc1 (by simp [catalogPatterns])
  have h2 : findAll pat_rbc2 text = [] := h pat_rbc2 (by simp [catalogPatterns])
  have h3 : findAll pat_sys1 text = [] := h pat_sys1 (by simp [catalogPatterns])
  have h4 : findAll pat_sys2 text = [] := h pat_sys2 (by simp [catalogPatterns])
  have h5 : findAll pat_dia1 text = [] := h pat_dia1 (by simp [catalogPatterns])
  have h6 : findAll pat_dia2 text = [] := h pat_dia2 (by simp [catalogPatterns])
  have h7 : findAll pat_glu1 text = [] := h pat_glu1 (by simp [catalogPatterns])
  have h8 : findAll pat_glu2 text = [] := h pat_glu2 (by simp [catalogPatterns])
  have hext : extract_medical_data text =
      (MEDICAL_PATTERNS.map (fun kp => (kp.1, ([] : List ℚ)))) := by
    simp [extract_medical_data, MEDICAL_PATTERNS, extractKind,
      h1, h2, h3, h4, h5, h6, h7, h8, processCaptures]
  refine ⟨hext, ?_⟩
  intro k ps hk
  rw [lookup_extract text k ps hk]
  simp only [MEDICAL_PATTERNS, List.mem_cons, List.not_mem_nil, or_false] at hk
  rcases hk with hk | hk | hk | hk <;>
    (injection hk with hk1 hk2; subst hk2;
      simp [extractKind, h1, h2, h3, h4, h5, h6, h7, h8, processCaptures])

theorem extract_no_matches_witness :
    (∀ p ∈ catalogPatterns, findAll p "no medical values here" = [])
    ∧ (extract_medical_data "no medical values here" =
        (MEDICAL_PATTERNS.map (fun kp => (kp.1, ([] : List ℚ))))
      ∧ ∀ k ps, (k, ps) ∈ MEDICAL_PATTERNS →
          (extract_medical_data "no medical values here").lookup k = some []) :=
  ⟨by decide, extract_no_matches "no medical values here" (by decide)⟩

/-! ### Folded maximum lemmas and row alignment (claim C2) -/

theorem self_le_foldl_max (l : List Nat) (b : Nat) : b ≤ l.foldl max b := by
  induction l generalizing b with
  | nil => exact Nat.le_refl b
  | cons a l ih =>
    simp only [List.foldl_cons]
    exact le_trans (le_max_left b a) (ih (max b a))

theorem mem_le_foldl_max (l : List Nat) (b a : Nat) (h : a ∈ l) : a ≤ l.foldl max b := by
  induction l generalizing b with
  | nil => cases h
  | cons c l ih =>
    simp only [List.foldl_cons]
    rcases List.mem_cons.mp h with rfl | h2
    · exact le_trans (le_max_right b a) (self_le_foldl_max l _)
    · exact ih _ h2

theorem foldl_max_eq_or_mem (l : List Nat) (b : Nat) :
    l.foldl max b = b ∨ l.foldl max b ∈ l := by
  induction l generalizing b with
  | nil => exact Or.inl rfl
  | cons c l ih =>
    simp only [List.foldl_cons]
    rcases ih (max b c) with h | h
    · rcases max_choice b c with hm | hm
      · exact Or.inl (h.trans hm)
      · exact Or.inr (by rw [h, hm]; exact List.mem_cons_self c l)
    · exact Or.inr (List.mem_cons_of_mem c h)

theorem length_le_maxMeasurements (data : List (Kind × List ℚ)) (kv : Kind × List ℚ)
    (h : kv ∈ data) (hne : kv.2 ≠ []) : kv.2.length ≤ maxMeasurements data := by
  apply mem_le_foldl_max
  exact List.mem_map.mpr ⟨kv, List.mem_filter.mpr ⟨h, by simpa using hne⟩, rfl⟩

theorem maxMeasurements_attained (data : List (Kind × List ℚ))
    (h : ∃ kv ∈ data, kv.2 ≠ []) :
    ∃ kv ∈ data, kv.2 ≠ [] ∧ kv.2.length = maxMeasurements data := by
  obtain ⟨kv0, h0, hne0⟩ := h
  rcases foldl_max_eq_or_mem
      ((data.filter (fun kv => !kv.2.isEmpty)).map (fun kv => kv.2.length)) 0 with hz | hm
  · have h1 : kv0.2.length ≤ maxMeasurements data :=
      length_le_maxMeasurements data kv0 h0 hne0
    have h2 : kv0.2.length = 0 := by
      have : maxMeasurements data = 0 := hz
      omega
    exact absurd (List.length_eq_zero.mp h2) hne0
  · obtain ⟨kv, hkvf, hlen⟩ := List.mem_map.mp hm
    have hf := List.mem_filter.mp hkvf
    exact ⟨kv, hf.1, by simpa using hf.2, hlen⟩

theorem measurements_length (data : List (Kind × List ℚ)) :
    (measurements data).length = maxMeasurements data := by
  simp [measurements]

theorem measurements_get (data : List (Kind × List ℚ)) (i : Nat)
    (hi : i < (measurements data).length) :
    (measurements data).get ⟨i, hi⟩ = measurementRow data i := by
  have hi2 : i < maxMeasurements data := by
    rw [← measurements_length data]; exact hi
  simp [measurements, List.get_eq_getElem, List.getElem_map, List.getElem_range]

/-- C2: when at least one kind is non-empty, the report's measurements list
has length equal to the maximum sequence length among non-empty kinds (it
bounds every non-empty kind's length and is attained by one of them), and row
`i` maps every kind of the extraction result to its `i`-th value when `i` is
within that kind's bounds and to the explicit absence marker `none`
otherwise. -/
theorem generate_report_rows (text filename ts : String)
    (h : ∃ kv ∈ extract_medical_data text, kv.2 ≠ []) :
    ((generate_report (extract_medical_data text) filename ts).measurements.length =
      maxMeasurements (extract_medical_data text))
    ∧ (∀ kv ∈ extract_medical_data text, kv.2 ≠ [] →
        kv.2.length ≤
          (generate_report (extract_medical_data text) filename ts).measurements.length)
    ∧ (∃ kv ∈ extract_medical_data text, kv.2 ≠ [] ∧
        kv.2.length =
          (generate_report (extract_medical_data text) filename ts).measurements.length)
    ∧ (∀ (i : Nat)
        (hi : i < (generate_report (extract_medical_data text) filename ts).measurements.length)
        (k : Kind) (vs : List ℚ), (k, vs) ∈ extract_medical_data text →
        ((generate_report (extract_medical_data text) filename ts).measurements.get
            ⟨i, hi⟩).lookup k =
          some (if h2 : i < vs.length then some (vs.get ⟨i, h2⟩) else none)) := by
  have hmeas : (generate_report (extract_medical_data text) filename ts).measurements =
      measurements (extract_medical_data text) := rfl
  refine ⟨?_, ?_, ?_, ?_⟩
  · rw [hmeas, measurements_length]
  · intro kv hkv hne
    rw [hmeas, measurements_length]
    exact length_le_maxMeasurements _ kv hkv hne
  · obtain ⟨kv, hkv, hne, hlen⟩ := maxMeasurements_attained _ h
    exact ⟨kv, hkv, hne, by rw [hmeas, measurements_length]; exact hlen⟩
  · intro i hi k vs hmem
    have hrow : ((generate_report (extract_medical_data text) filename ts).measurements.get
        ⟨i, hi⟩) = measurementRow (extract_medical_data text) i :=
      measurements_get (extract_medical_data text) i hi
    rw [hrow, row_lookup_of_mem_extract text i k vs hmem]
    by_cases h2 : i < vs.length
    · simp [List.getElem?_eq_getElem h2, h2]
    · simp [List.getElem?_eq_none (le_of_not_lt h2), h2]

theorem generate_report_rows_witness :
    (∃ kv ∈ extract_medical_data "Glucose: 95", kv.2 ≠ [])
    ∧ (((generate_report (extract_medical_data "Glucose: 95") "r.pdf" "d").measurements.length =
        maxMeasurements (extract_medical_data "Glucose: 95"))
      ∧ (∀ kv ∈ extract_medical_data "Glucose: 95", kv.2 ≠ [] →
          kv.2.length ≤
            (generate_report (extract_medical_data "Glucose: 95") "r.pdf" "d").measurements.length)
      ∧ (∃ kv ∈ extract_medical_data "Glucose: 95", kv.2 ≠ [] ∧
          kv.2.length =
            (generate_report (extract_medical_data "Glucose: 95") "r.pdf" "d").measurements.length)
      ∧ (∀ (i : Nat)
          (hi : i <
            (generate_report (extract_medical_data "Glucose: 95") "r.pdf" "d").measurements.length)
          (k : Kind) (vs : List ℚ), (k, vs) ∈ extract_medical_data "Glucose: 95" →
          ((generate_report (extract_medical_data "Glucose: 95") "r.pdf" "d").measurements.get
              ⟨i, hi⟩).lookup k =
            some (if h2 : i < vs.length then some (vs.get ⟨i, h2⟩) else none))) :=
  ⟨by decide, generate_report_rows "Glucose: 95" "r.pdf" "d" (by decide)⟩

/-! ### Statistics map lemmas and claims C6, C10 -/

theorem statistics_lookup_eq_none (data : List (Kind × List ℚ)) (k : Kind)
    (h : ∀ vs, (k, vs) ∈ data → vs = []) :
    (statistics data).lookup k = none := by
  induction data with
  | nil => rfl
  | cons kv rest ih =>
    have hrest : ∀ vs, (k, vs) ∈ rest → vs = [] :=
      fun vs hv => h vs (List.mem_cons_of_mem kv hv)
    obtain ⟨k', vs'⟩ := kv
    match hvs : vs' with
    | [] =>
      simp only [statistics, List.filterMap_cons] at ih ⊢
      exact ih hrest
    | y :: ys =>
      by_cases hk : k = k'
      · subst hk
        have := h (y :: ys) (List.mem_cons_self _ _)
        simp at this
      · have hbeq : (k == k') = false := by simpa using hk
        simp only [statistics, List.filterMap_cons] at ih ⊢
        rw [List.lookup_cons, hbeq]
        exact ih hrest

theorem statistics_lookup_some (data : List (Kind × List ℚ)) (k : Kind) (st : Stats)
    (h : (statistics data).lookup k = some st) :
    ∃ x xs, (k, x :: xs) ∈ data ∧ st = statsOf x xs := by
  induction data with
  | nil => simp [statistics] at h
  | cons kv rest ih =>
    obtain ⟨k', vs'⟩ := kv
    match hvs : vs' with
    | [] =>
      simp only [statistics, List.filterMap_cons] at h ih
      obtain ⟨x, xs, hmem, hst⟩ := ih h
      exact ⟨x, xs, List.mem_cons_of_mem _ hmem, hst⟩
    | y :: ys =>
      by_cases hk : k = k'
      · subst hk
        simp only [statistics, List.filterMap_cons, List.lookup_cons, beq_self_eq_true] at h
        exact ⟨y, ys, List.mem_cons_self _ _, (Option.some.inj h).symm⟩
      · have hbeq : (k == k') = false := by simpa using hk
        simp only [statistics, List.filterMap_cons, List.lookup_cons, hbeq] at h ih
        obtain ⟨x, xs, hmem, hst⟩ := ih h
        exact ⟨x, xs, List.mem_cons_of_mem _ hmem, hst⟩

/-- C6: a kind whose extracted value sequence is empty contributes no entry to
the statistics map of the report — the key is absent (`lookup` yields `none`),
not mapped to a zero or placeholder statistic. -/
theorem empty_kind_absent_from_statistics (data : List (Kind × List ℚ))
    (filename ts : String) (k : Kind)
    (h : ∀ vs, (k, vs) ∈ data → vs = []) :
    (generate_report data filename ts).statistics.lookup k = none :=
  statistics_lookup_eq_none data k h

theorem empty_kind_absent_from_statistics_witness :
    (∀ vs, (Kind.rbc, vs) ∈ extract_medical_data "Glucose: 95" → vs = [])
    ∧ (generate_report (extract_medical_data "Glucose: 95") "r.pdf" "d").statistics.lookup
        Kind.rbc = none := by
  have hemp : ∀ vs, (Kind.rbc, vs) ∈ extract_medical_data "Glucose: 95" → vs = [] := by
    intro vs h
    have h1 := lookup_of_mem_extract "Glucose: 95" Kind.rbc vs h
    have h2 : (extract_medical_data "Glucose: 95").lookup Kind.rbc = some [] := by decide
    exact Option.some.inj (h1.symm.trans h2)
  exact ⟨hemp,
    empty_kind_absent_from_statistics (extract_medical_data "Glucose: 95") "r.pdf" "d"
      Kind.rbc hemp⟩

theorem length_filter_range_lt (N m : Nat) (h : m ≤ N) :
    ((List.range N).filter (fun i => decide (i < m))).length = m := by
  induction N with
  | zero =>
    simp only [List.range_zero, List.filter_nil, List.length_nil]
    omega
  | succ n ih =>
    rw [List.range_succ, List.filter_append, List.length_append]
    by_cases hm : m ≤ n
    · have hd : decide (n < m) = false := by simp; omega
      simp [hd, ih hm]
    · have hm2 : m = n + 1 := by omega
      subst hm2
      have hd : decide (n < n + 1) = true := by simp
      have hall : (List.range n).filter (fun i => decide (i < n + 1)) = List.range n := by
        apply List.filter_eq_self.mpr
        intro a ha
        have := List.mem_range.mp ha
        simp only [decide_eq_true_eq]
        omega
      simp [hd, hall]

/-- C10: the report is internally consistent — for every kind appearing in
the statistics map, its `count` equals the number of measurement rows in
which that kind's value is not the absence marker `none`. -/
theorem statistics_count_matches_rows (text filename ts : String) (k : Kind) (st : Stats)
    (hst : (generate_report (extract_medical_data text) filename ts).statistics.lookup k =
      some st) :
    ((generate_report (extract_medical_data text) filename ts).measurements.filter
        (fun row => ((row.lookup k).getD none).isSome)).length = st.count := by
  have hst2 : (statistics (extract_medical_data text)).lookup k = some st := hst
  obtain ⟨x, xs, hmem, hsteq⟩ := statistics_lookup_some _ k st hst2
  have hcnt : st.count = (x :: xs).length := by rw [hsteq]; rfl
  have hle : (x :: xs).length ≤ maxMeasurements (extract_medical_data text) :=
    length_le_maxMeasurements _ (k, x :: xs) hmem (by simp)
  have hmeas : (generate_report (extract_medical_data text) filename ts).measurements =
      (List.range (maxMeasurements (extract_medical_data text))).map
        (measurementRow (extract_medical_data text)) := rfl
  rw [hmeas, List.filter_map, List.length_map]
  have hcong : (List.range (maxMeasurements (extract_medical_data text))).filter
      ((fun row => ((row.lookup k).getD none).isSome) ∘
        measurementRow (extract_medical_data text)) =
      (List.range (maxMeasurements (extract_medical_data text))).filter
        (fun i => decide (i < (x :: xs).length)) := by
    apply List.filter_congr
    intro i _
    simp only [Function.comp_apply, row_lookup_of_mem_extract text i k (x :: xs) hmem,
      Option.getD_some]
    by_cases h2 : i < (x :: xs).length
    · have h2' : i < xs.length + 1 := by simpa using h2
      simp [List.getElem?_eq_getElem h2, h2']
    · have h2' : ¬i < xs.length + 1 := by simpa using h2
      simp [List.getElem?_eq_none (le_of_not_lt h2), h2']
  rw [hcong, length_filter_range_lt _ _ hle, hcnt]

/-! ### Concrete evaluation helpers for witnesses -/

theorem parseFloat_95 : parseFloat "95" = some (95 : ℚ) := by
  have ht : takeDigits "95".data = (['9', '5'], []) := by decide
  have hd : digitsToNat ['9', '5'] = 95 := by decide
  simp [parseFloat, ht, hd]

theorem extract_glucose95 : extract_medical_data "Glucose: 95" =
    [(Kind.rbc, []), (Kind.systolic, []), (Kind.diastolic, []),
      (Kind.glucose, [(95 : ℚ)])] := by
  have e1 : extractKind "Glucose: 95" [pat_rbc1, pat_rbc2] = [] := by decide
  have e2 : extractKind "Glucose: 95" [pat_sys1, pat_sys2] = [] := by decide
  have e3 : extractKind "Glucose: 95" [pat_dia1, pat_dia2] = [] := by decide
  have h7 : findAll pat_glu1 "Glucose: 95" = ["95"] := by decide
  have h8 : findAll pat_glu2 "Glucose: 95" = [] := by decide
  have hp : processCaptures ["95"] = [(95 : ℚ)] := by
    simp only [processCaptures, parseFloat_95]
  have e4 : extractKind "Glucose: 95" [pat_glu1, pat_glu2] = [(95 : ℚ)] := by
    rw [show extractKind "Glucose: 95" [pat_glu1, pat_glu2] =
        processCaptures (findAll pat_glu1 "Glucose: 95") ++
          (processCaptures (findAll pat_glu2 "Glucose: 95") ++ []) from rfl]
    rw [h7, h8, hp]
    rfl
  simp only [extract_medical_data, MEDICAL_PATTERNS, List.map_cons, List.map_nil, e1, e2, e3, e4]

theorem statistics_glucose95 : statistics (extract_medical_data "Glucose: 95") =
    [(Kind.glucose, statsOf 95 [])] := by
  rw [extract_glucose95]
  rfl

theorem statistics_count_matches_rows_witness :
    ((generate_report (extract_medical_data "Glucose: 95") "r.pdf" "d").statistics.lookup
        Kind.glucose = some (statsOf 95 []))
    ∧ ((generate_report (extract_medical_data "Glucose: 95") "r.pdf" "d").measurements.filter
        (fun row => ((row.lookup Kind.glucose).getD none).isSome)).length =
      (statsOf 95 []).count := by
  have hst : (generate_report (extract_medical_data "Glucose: 95") "r.pdf" "d").statistics.lookup
      Kind.glucose = some (statsOf 95 []) := by
    show (statistics (extract_medical_data "Glucose: 95")).lookup Kind.glucose =
      some (statsOf 95 [])
    rw [statistics_glucose95]
    rfl
  exact ⟨hst,
    statistics_count_matches_rows "Glucose: 95" "r.pdf" "d" Kind.glucose (statsOf 95 []) hst⟩

/-! ### Claims C1 (chart production) and C4 (no-data outcome) -/

/-- C1 counterexample: on the extraction result of `"Glucose: 95"` the
systolic, diastolic and rbc sequences are all empty, yet the blood-pressure
and rbc chart entries are still produced — `create_visualizations` tests key
membership (`'systolic' in data`), which always holds for an extraction
result, not non-emptiness. This refutes the claim that a chart is present
only if its series is non-empty. -/
theorem chart_on_empty_series :
    (extract_medical_data "Glucose: 95").lookup Kind.systolic = some []
    ∧ (extract_medical_data "Glucose: 95").lookup Kind.diastolic = some []
    ∧ (extract_medical_data "Glucose: 95").lookup Kind.rbc = some []
    ∧ ((create_visualizations (extract_medical_data "Glucose: 95") "20240101_120000").map
        Chart.name) = ["blood_pressure", "rbc", "glucose"] := by
  decide

/-- C1 amended: the chart entries are guarded by key membership in the data
dict, and every extraction result contains all four kinds as keys, so for
every extraction result all three chart entries (`blood_pressure`, `rbc`,
`glucose`) are present — whether or not the underlying sequences are empty. -/
theorem charts_always_produced (text ts : String) :
    ((create_visualizations (extract_medical_data text) ts).map Chart.name) =
      ["blood_pressure", "rbc", "glucose"] := by
  have h1 := lookup_extract text Kind.systolic [pat_sys1, pat_sys2] (by decide)
  have h2 := lookup_extract text Kind.diastolic [pat_dia1, pat_dia2] (by decide)
  have h3 := lookup_extract text Kind.rbc [pat_rbc1, pat_rbc2] (by decide)
  have h4 := lookup_extract text Kind.glucose [pat_glu1, pat_glu2] (by decide)
  simp [create_visualizations, h1, h2, h3, h4]

/-- C4: when every kind's extracted sequence is empty, the pipeline returns
the distinct no-data error outcome — not the generic unexpected-failure
outcome and not a success — and it carries the bounded diagnostic preview:
the first 1000 characters of the raw OCR text (plus a 3-character ellipsis
marker when the text is longer), hence at most 1003 characters. -/
theorem no_data_outcome (full_text filename ts : String)
    (h : ∀ kv ∈ extract_medical_data full_text, kv.2 = []) :
    analyze_extracted full_text filename ts =
      AnalyzeResult.noData "No medical data found in the document" (debugPreview full_text)
    ∧ (debugPreview full_text).length ≤ 1003
    ∧ (∀ e, analyze_extracted full_text filename ts ≠ AnalyzeResult.failure e)
    ∧ (∀ r v, analyze_extracted full_text filename ts ≠ AnalyzeResult.success r v) := by
  have hc : (extract_medical_data full_text).all (fun kv => kv.2.isEmpty) = true := by
    rw [List.all_eq_true]
    intro kv hkv
    rw [h kv hkv]
    rfl
  have heq : analyze_extracted full_text filename ts =
      AnalyzeResult.noData "No medical data found in the document"
        (debugPreview full_text) := by
    simp only [analyze_extracted]
    rw [hc]
    rfl
  have hlen : (debugPreview full_text).length ≤ 1003 := by
    rw [debugPreview]
    have h1 : (String.mk (full_text.data.take 1000)).length ≤ 1000 := by
      show (full_text.data.take 1000).length ≤ 1000
      simp [List.length_take]
    split
    · rw [String.length_append]
      have h2 : ("..." : String).length = 3 := rfl
      omega
    · rw [String.length_append]
      have h2 : ("" : String).length = 0 := rfl
      omega
  refine ⟨heq, hlen, ?_, ?_⟩
  · intro e hcon
    rw [heq] at hcon
    cases hcon
  · intro r v hcon
    rw [heq] at hcon
    cases hcon

theorem no_data_outcome_witness :
    (∀ kv ∈ extract_medical_data "hello", kv.2 = [])
    ∧ (analyze_extracted "hello" "r.pdf" "d" =
        AnalyzeResult.noData "No medical data found in the document" (debugPreview "hello")
      ∧ (debugPreview "hello").length ≤ 1003
      ∧ (∀ e, analyze_extracted "hello" "r.pdf" "d" ≠ AnalyzeResult.failure e)
      ∧ (∀ r v, analyze_extracted "hello" "r.pdf" "d" ≠ AnalyzeResult.success r v)) :=
  ⟨by decide, no_data_outcome "hello" "r.pdf" "d" (by decide)⟩

/-! ### Mean and rounding lemmas, claim C5 -/

theorem foldl_min_le_init (xs : List ℚ) (x : ℚ) : xs.foldl Min.min x ≤ x := by
  induction xs generalizing x with
  | nil => exact le_refl x
  | cons y ys ih =>
    simp only [List.foldl_cons]
    exact le_trans (ih (min x y)) (min_le_left x y)

theorem foldl_min_le_mem (xs : List ℚ) (x a : ℚ) (h : a ∈ xs) : xs.foldl Min.min x ≤ a := by
  induction xs generalizing x with
  | nil => cases h
  | cons y ys ih =>
    simp only [List.foldl_cons]
    rcases List.mem_cons.mp h with rfl | h2
    · exact le_trans (foldl_min_le_init ys (min x a)) (min_le_right x a)
    · exact ih (min x y) h2

theorem init_le_foldl_max (xs : List ℚ) (x : ℚ) : x ≤ xs.foldl Max.max x := by
  induction xs generalizing x with
  | nil => exact le_refl x
  | cons y ys ih =>
    simp only [List.foldl_cons]
    exact le_trans (le_max_left x y) (ih (max x y))

theorem mem_le_foldl_max_q (xs : List ℚ) (x a : ℚ) (h : a ∈ xs) : a ≤ xs.foldl Max.max x := by
  induction xs generalizing x with
  | nil => cases h
  | cons y ys ih =>
    simp only [List.foldl_cons]
    rcases List.mem_cons.mp h with rfl | h2
    · exact le_trans (le_max_right x a) (init_le_foldl_max ys (max x a))
    · exact ih (max x y) h2

theorem length_cast_pos (x : ℚ) (xs : List ℚ) : (0 : ℚ) < ((x :: xs).length : ℚ) := by
  exact_mod_cast List.length_pos.mpr (List.cons_ne_nil x xs)

theorem foldl_min_le_mean (x : ℚ) (xs : List ℚ) :
    xs.foldl Min.min x ≤ npMean (x :: xs) := by
  rw [npMean, le_div_iff₀ (length_cast_pos x xs)]
  have h := List.card_nsmul_le_sum (x :: xs) (xs.foldl Min.min x) ?_
  · rw [nsmul_eq_mul] at h
    calc xs.foldl Min.min x * ((x :: xs).length : ℚ)
        = ((x :: xs).length : ℚ) * xs.foldl Min.min x := by ring
      _ ≤ (x :: xs).sum := h
  · intro a ha
    rcases List.mem_cons.mp ha with rfl | h2
    · exact foldl_min_le_init xs a
    · exact foldl_min_le_mem xs x a h2

theorem mean_le_foldl_max (x : ℚ) (xs : List ℚ) :
    npMean (x :: xs) ≤ xs.foldl Max.max x := by
  rw [npMean, div_le_iff₀ (length_cast_pos x xs)]
  have h := List.sum_le_card_nsmul (x :: xs) (xs.foldl Max.max x) ?_
  · rw [nsmul_eq_mul] at h
    calc (x :: xs).sum ≤ ((x :: xs).length : ℚ) * xs.foldl Max.max x := h
      _ = xs.foldl Max.max x * ((x :: xs).length : ℚ) := by ring
  · intro a ha
    rcases List.mem_cons.mp ha with rfl | h2
    · exact init_le_foldl_max xs a
    · exact mem_le_foldl_max_q xs x a h2

theorem roundHalfEven_mono {q r : ℚ} (h : q ≤ r) : roundHalfEven q ≤ roundHalfEven r := by
  have hf : ⌊q⌋ ≤ ⌊r⌋ := Int.floor_le_floor h
  rcases lt_or_eq_of_le hf with hlt | heq
  · rw [roundHalfEven, roundHalfEven]
    split_ifs <;> omega
  · rw [roundHalfEven, roundHalfEven, ← heq]
    have h2 : q - (⌊q⌋ : ℚ) ≤ r - (⌊q⌋ : ℚ) := by linarith
    split_ifs <;> first | omega | (exfalso; linarith)

theorem round2_mono {q r : ℚ} (h : q ≤ r) : round2 q ≤ round2 r := by
  rw [round2, round2]
  refine (div_le_div_iff_of_pos_right (by norm_num : (0 : ℚ) < 100)).mpr ?_
  exact_mod_cast roundHalfEven_mono (by linarith : q * 100 ≤ r * 100)

theorem parseFloat_2004 : parseFloat "2.004" = some ((501 : ℚ)/250) := by
  have ht : takeDigits "2.004".data = (['2'], ['.', '0', '0', '4']) := by decide
  have ht2 : takeDigits ['0', '0', '4'] = (['0', '0', '4'], []) := by decide
  have hd1 : digitsToNat ['2'] = 2 := by decide
  have hd2 : digitsToNat ['0', '0', '4'] = 4 := by decide
  simp only [parseFloat, ht, ht2, hd1, hd2]
  norm_num

theorem extract_rbc2004 : extract_medical_data "RBC: 2.004" =
    [(Kind.rbc, [(501 : ℚ)/250]), (Kind.systolic, []), (Kind.diastolic, []),
      (Kind.glucose, [])] := by
  have h1 : findAll pat_rbc1 "RBC: 2.004" = [] := by decide
  have h2 : findAll pat_rbc2 "RBC: 2.004" = ["2.004"] := by decide
  have hp : processCaptures ["2.004"] = [(501 : ℚ)/250] := by
    simp only [processCaptures, parseFloat_2004]
  have e1 : extractKind "RBC: 2.004" [pat_rbc1, pat_rbc2] = [(501 : ℚ)/250] := by
    rw [show extractKind "RBC: 2.004" [pat_rbc1, pat_rbc2] =
        processCaptures (findAll pat_rbc1 "RBC: 2.004") ++
          (processCaptures (findAll pat_rbc2 "RBC: 2.004") ++ []) from rfl]
    rw [h1, h2, hp]
    rfl
  have e2 : extractKind "RBC: 2.004" [pat_sys1, pat_sys2] = [] := by decide
  have e3 : extractKind "RBC: 2.004" [pat_dia1, pat_dia2] = [] := by decide
  have e4 : extractKind "RBC: 2.004" [pat_glu1, pat_glu2] = [] := by decide
  simp only [extract_medical_data, MEDICAL_PATTERNS, List.map_cons, List.map_nil, e1, e2, e3, e4]

/-- C5 counterexample: for the input `"RBC: 2.004"` the rbc sequence is
`[2.004]`, so the closed interval `[min, max]` of the raw sequence is
`[2.004, 2.004]`; but the reported average is `round(2.004, 2) = 2.0`,
which lies strictly below the sequence minimum. The claim that the average
lies within the `[min, max]` interval of the sequence is therefore false. -/
theorem average_below_sequence_min :
    (extract_medical_data "RBC: 2.004").lookup Kind.rbc = some [(501 : ℚ)/250]
    ∧ (generate_report (extract_medical_data "RBC: 2.004") "r.pdf" "d").statistics.lookup
        Kind.rbc = some (statsOf ((501 : ℚ)/250) [])
    ∧ (statsOf ((501 : ℚ)/250) []).average < (501 : ℚ)/250 := by
  refine ⟨?_, ?_, ?_⟩
  · rw [extract_rbc2004]
    rfl
  · show (statistics (extract_medical_data "RBC: 2.004")).lookup Kind.rbc =
      some (statsOf ((501 : ℚ)/250) [])
    rw [extract_rbc2004]
    rfl
  · have havg : (statsOf ((501 : ℚ)/250) []).average = 2 := by
      show round2 (npMean [(501 : ℚ)/250]) = 2
      have h1 : npMean [(501 : ℚ)/250] = 501/250 := by
        rw [npMean]
        simp
      rw [h1, round2, roundHalfEven]
      norm_num
    rw [havg]
    norm_num

theorem extract_keys_nodup (text : String) :
    ((extract_medical_data text).map Prod.fst).Nodup := by
  show ([Kind.rbc, Kind.systolic, Kind.diastolic, Kind.glucose] : List Kind).Nodup
  decide

theorem statistics_lookup_of_mem (data : List (Kind × List ℚ))
    (hnd : (data.map Prod.fst).Nodup) (k : Kind) (x : ℚ) (xs : List ℚ)
    (h : (k, x :: xs) ∈ data) :
    (statistics data).lookup k = some (statsOf x xs) := by
  induction data with
  | nil => cases h
  | cons kv rest ih =>
    obtain ⟨k', vs'⟩ := kv
    simp only [List.map_cons, List.nodup_cons] at hnd
    rcases List.mem_cons.mp h with heq | hmem
    · injection heq with hk hv
      subst hk
      subst hv
      simp only [statistics, List.filterMap_cons, List.lookup_cons, beq_self_eq_true]
    · have hk : k ≠ k' := by
        intro hkk
        subst hkk
        exact hnd.1 (List.mem_map.mpr ⟨(k, x :: xs), hmem, rfl⟩)
      have hbeq : (k == k') = false := by simpa using hk
      match hvs : vs' with
      | [] =>
        simp only [statistics, List.filterMap_cons] at ih ⊢
        exact ih hnd.2 hmem
      | y :: ys =>
        simp only [statistics, List.filterMap_cons, List.lookup_cons, hbeq] at ih ⊢
        exact ih hnd.2 hmem

/-- C5 amended: for every kind with a non-empty extracted sequence, the
statistics entry has `count` equal to the sequence length, and its `average`
lies within the closed interval `[min, max]` formed by the entry's own
(rounded) `min` and `max` fields. (It need not lie within the raw sequence's
`[min, max]`: rounding the mean to two decimal digits can move it just
outside, as the counterexample shows.) -/
theorem statistics_entry_sound (text filename ts : String) (k : Kind) (x : ℚ) (xs : List ℚ)
    (hmem : (k, x :: xs) ∈ extract_medical_data text) :
    ∃ st, (generate_report (extract_medical_data text) filename ts).statistics.lookup k =
        some st
      ∧ st.count = (x :: xs).length
      ∧ st.min ≤ st.average ∧ st.average ≤ st.max := by
  refine ⟨statsOf x xs, ?_, rfl, ?_, ?_⟩
  · exact statistics_lookup_of_mem (extract_medical_data text) (extract_keys_nodup text)
      k x xs hmem
  · exact round2_mono (foldl_min_le_mean x xs)
  · exact round2_mono (mean_le_foldl_max x xs)

theorem statistics_entry_sound_witness :
    ((Kind.rbc, (501 : ℚ)/250 :: []) ∈ extract_medical_data "RBC: 2.004")
    ∧ ∃ st, (generate_report (extract_medical_data "RBC: 2.004") "r.pdf" "d").statistics.lookup
          Kind.rbc = some st
        ∧ st.count = ((501 : ℚ)/250 :: []).length
        ∧ st.min ≤ st.average ∧ st.average ≤ st.max := by
  have hmem : (Kind.rbc, (501 : ℚ)/250 :: []) ∈ extract_medical_data "RBC: 2.004" := by
    rw [extract_rbc2004]
    exact List.mem_cons_self _ _
  exact ⟨hmem, statistics_entry_sound "RBC: 2.004" "r.pdf" "d" Kind.rbc ((501 : ℚ)/250) [] hmem⟩

/-! ### Artifact path lemmas, claim C9 -/

theorem mem_of_mem_ite_nil {α : Type} {c : α} {b : Prop} [Decidable b] {l : List α}
    (h : c ∈ (if b then l else [])) : c ∈ l := by
  by_cases hb : b
  · rwa [if_pos hb] at h
  · rw [if_neg hb] at h
    cases h

theorem chart_cases (data : List (Kind × List ℚ)) (ts : String) (c : Chart)
    (h : c ∈ create_visualizations data ts) :
    c = ⟨"blood_pressure", "static/bp_" ++ ts ++ ".png", "/static/bp_" ++ ts ++ ".png"⟩
    ∨ c = ⟨"rbc", "static/rbc_" ++ ts ++ ".png", "/static/rbc_" ++ ts ++ ".png"⟩
    ∨ c = ⟨"glucose", "static/glucose_" ++ ts ++ ".png", "/static/glucose_" ++ ts ++ ".png"⟩ := by
  simp only [create_visualizations, List.mem_append] at h
  rcases h with (h | h) | h
  · exact Or.inl (List.mem_singleton.mp (mem_of_mem_ite_nil h))
  · exact Or.inr (Or.inl (List.mem_singleton.mp (mem_of_mem_ite_nil h)))
  · exact Or.inr (Or.inr (List.mem_singleton.mp (mem_of_mem_ite_nil h)))

theorem string_append_inj (pre a b suf : String)
    (h : pre ++ a ++ suf = pre ++ b ++ suf) : a = b := by
  have hd : (pre ++ a ++ suf).data = (pre ++ b ++ suf).data := by rw [h]
  simp only [String.data_append] at hd
  have h2 : pre.data ++ a.data = pre.data ++ b.data := List.append_cancel_right hd
  have h3 : a.data = b.data := List.append_cancel_left h2
  obtain ⟨da⟩ := a
  obtain ⟨db⟩ := b
  cases h3
  rfl

theorem bp_path_ne_rbc_path (ts1 ts2 : String) :
    ("static/bp_" ++ ts1 ++ ".png") ≠ ("static/rbc_" ++ ts2 ++ ".png") := by
  intro h
  have hd : ("static/bp_" ++ ts1 ++ ".png").data = ("static/rbc_" ++ ts2 ++ ".png").data := by
    rw [h]
  simp only [String.data_append] at hd
  simp at hd

theorem bp_path_ne_glucose_path (ts1 ts2 : String) :
    ("static/bp_" ++ ts1 ++ ".png") ≠ ("static/glucose_" ++ ts2 ++ ".png") := by
  intro h
  have hd : ("static/bp_" ++ ts1 ++ ".png").data =
      ("static/glucose_" ++ ts2 ++ ".png").data := by rw [h]
  simp only [String.data_append] at hd
  simp at hd

theorem rbc_path_ne_glucose_path (ts1 ts2 : String) :
    ("static/rbc_" ++ ts1 ++ ".png") ≠ ("static/glucose_" ++ ts2 ++ ".png") := by
  intro h
  have hd : ("static/rbc_" ++ ts1 ++ ".png").data =
      ("static/glucose_" ++ ts2 ++ ".png").data := by rw [h]
  simp only [String.data_append] at hd
  simp at hd

/-- C9 counterexample: two different analyses performed within the same
wall-clock second receive the same `strftime("%Y%m%d_%H%M%S")` timestamp
string, and then write their chart artifacts to exactly the same file paths —
the second generation overwrites the first. File identifiers are therefore
not unique and collision-free across arbitrary pairs of generations, refuting
the claim as stated. -/
theorem artifact_collision_same_second :
    extract_medical_data "Glucose: 95" ≠ extract_medical_data "Systolic: 120"
    ∧ ((create_visualizations (extract_medical_data "Glucose: 95") "20240101_120000").map
        Chart.file) =
      ((create_visualizations (extract_medical_data "Systolic: 120") "20240101_120000").map
        Chart.file) := by
  decide

/-- C9 amended: every chart artifact path follows the naming convention
`static/{kind-or-group}_{timestamp}.png` with group identifiers `bp`, `rbc`,
`glucose`, and any two generations whose (second-resolution) timestamp
strings differ write to disjoint artifact paths. Uniqueness holds only under
that proviso: generations that share the timestamp string — analyses within
the same second — produce identical paths and overwrite each other (see the
counterexample). -/
theorem artifact_paths_convention (data1 data2 : List (Kind × List ℚ)) (ts1 ts2 : String)
    (hne : ts1 ≠ ts2) :
    (∀ c ∈ create_visualizations data1 ts1,
      ∃ g ∈ (["bp", "rbc", "glucose"] : List String),
        c.file = "static/" ++ g ++ "_" ++ ts1 ++ ".png")
    ∧ (∀ c1 ∈ create_visualizations data1 ts1, ∀ c2 ∈ create_visualizations data2 ts2,
        c1.file ≠ c2.file) := by
  constructor
  · intro c hc
    rcases chart_cases data1 ts1 c hc with rfl | rfl | rfl
    · refine ⟨"bp", by simp, ?_⟩
      rw [show ("static/" ++ "bp" ++ "_" : String) = "static/bp_" from by decide]
    · refine ⟨"rbc", by simp, ?_⟩
      rw [show ("static/" ++ "rbc" ++ "_" : String) = "static/rbc_" from by decide]
    · refine ⟨"glucose", by simp, ?_⟩
      rw [show ("static/" ++ "glucose" ++ "_" : String) = "static/glucose_" from by decide]
  · intro c1 hc1 c2 hc2
    rcases chart_cases data1 ts1 c1 hc1 with rfl | rfl | rfl <;>
      rcases chart_cases data2 ts2 c2 hc2 with rfl | rfl | rfl
    · exact fun h => hne (string_append_inj "static/bp_" ts1 ts2 ".png" h)
    · exact bp_path_ne_rbc_path ts1 ts2
    · exact bp_path_ne_glucose_path ts1 ts2
    · exact fun h => (bp_path_ne_rbc_path ts2 ts1) h.symm
    · exact fun h => hne (string_append_inj "static/rbc_" ts1 ts2 ".png" h)
    · exact rbc_path_ne_glucose_path ts1 ts2
    · exact fun h => (bp_path_ne_glucose_path ts2 ts1) h.symm
    · exact fun h => (rbc_path_ne_glucose_path ts2 ts1) h.symm
    · exact fun h => hne (string_append_inj "static/glucose_" ts1 ts2 ".png" h)

theorem artifact_paths_convention_witness :
    ("20240101_120000" : String) ≠ "20240101_120001"
    ∧ ((∀ c ∈ create_visualizations (extract_medical_data "Glucose: 95") "20240101_120000",
        ∃ g ∈ (["bp", "rbc", "glucose"] : List String),
          c.file = "static/" ++ g ++ "_" ++ "20240101_120000" ++ ".png")
      ∧ (∀ c1 ∈ create_visualizations (extract_medical_data "Glucose: 95") "20240101_120000",
          ∀ c2 ∈ create_visualizations (extract_medical_data "Systolic: 120")
            "20240101_120001", c1.file ≠ c2.file)) :=
  ⟨by decide,
    artifact_paths_convention (extract_medical_data "Glucose: 95")
      (extract_medical_data "Systolic: 120") "20240101_120000" "20240101_120001" (by decide)⟩
